import Mathlib

/-!
Verification of the reconciliation logic of the googlesiteverification
Terraform provider (internal/provider/domain_resource.go and the two
data sources), as a shallow embedding in Lean.

Modelling conventions:
* Time is counted in whole seconds as `Nat`; network calls are modelled as
  instantaneous, so the only time consumed is the fixed backoff sleep.
* A Go `error` value is modelled by `GoErr`: either its chain contains a
  `googleapi.Error` (constructor `GoErr.api`, carrying the code and message
  that `errors.As` would extract), or it does not (constructor `GoErr.plain`,
  covering context cancellation, wrapped plain errors, and so on).
* `resp.Diagnostics.AddError` calls are recorded structurally in a
  `List Diag`; the formatted message strings are elided, the structured
  payload (which call site fired, with which error value) is kept.
* The API client is modelled as a function from an attempt index to the
  result of that call, so a stub that fails N times and then succeeds is a
  plain function of the attempt number.
* In the `select` between `ctx.Done()` and `time.After(sleepSeconds)`, the
  context deadline is received whenever the remaining budget
  `deadline - elapsed` is at most one backoff interval; the `canceled` flag
  of a response records that the bare `return` in that branch executed.
-/

/-- Code and message of a `googleapi.Error` as extracted by `errors.As`. -/
structure GoogleapiError where
  code : Nat
  message : String
deriving DecidableEq

/-- A Go error value, abstracted to what `checkErr` can observe: either the
error chain contains a `googleapi.Error` or it does not. -/
inductive GoErr where
  | api (e : GoogleapiError)
  | plain (msg : String)
deriving DecidableEq

/-- Auxiliary for `goContains`: does `sub` occur contiguously in the list? -/
def containsAux (sub : List Char) : List Char → Bool
  | [] => sub.isEmpty
  | c :: rest => sub.isPrefixOf (c :: rest) || containsAux sub rest

/-- Go `strings.Contains s sub`. -/
def goContains (s sub : String) : Bool :=
  containsAux sub.toList s.toList

/-- The transient create error message (`errTokenNotFound` in the source). -/
def errTokenNotFound : String :=
  "The necessary verification token could not be found on your site."

/-- The transient delete error message (`errTokenExists` in the source). -/
def errTokenExists : String :=
  "You cannot unverify your ownership of this site until your verification token (meta tag, HTML file, Google Analytics tracking code, Google Tag Manager container code, or DNS record) has been removed."

/-- The fixed backoff interval (`sleepSeconds = 60 * time.Second`), in seconds. -/
def sleepSeconds : Nat := 60

/-- `checkErr(err, msg)`: the error chain contains a `googleapi.Error` whose
code is 400 and whose message contains `msg` as a substring. -/
def checkErr (err : GoErr) (msg : String) : Bool :=
  match err with
  | .api apierr => apierr.code == 400 && goContains apierr.message msg
  | .plain _ => false

/-- Go `ishex` from net/url. -/
def ishex (c : Char) : Bool :=
  ('0' ≤ c && c ≤ '9') || ('a' ≤ c && c ≤ 'f') || ('A' ≤ c && c ≤ 'F')

/-- Go `unhex` from net/url. -/
def unhex (c : Char) : Nat :=
  if '0' ≤ c && c ≤ '9' then c.toNat - '0'.toNat
  else if 'a' ≤ c && c ≤ 'f' then c.toNat - 'a'.toNat + 10
  else c.toNat - 'A'.toNat + 10

/-- The character-level core of Go `url.QueryUnescape`: `%XY` with two hex
digits decodes to the code point `XY`, a `%` not followed by two hex digits
is an invalid escape (`none`), and `+` decodes to a space. This matches the
byte-level Go algorithm on ASCII data. -/
def unescapeList : List Char → Option (List Char)
  | [] => some []
  | '%' :: a :: b :: rest =>
      if ishex a && ishex b then
        (unescapeList rest).map (fun l => Char.ofNat (16 * unhex a + unhex b) :: l)
      else none
  | '%' :: _ => none
  | '+' :: rest => (unescapeList rest).map (fun l => ' ' :: l)
  | c :: rest => (unescapeList rest).map (fun l => c :: l)

/-- Go `url.QueryUnescape`. -/
def queryUnescape (s : String) : Option String :=
  (unescapeList s.toList).map List.asString

/-- Written from the spec claim's words, for comparison with `unescapeList`:
pure percent-decoding, which decodes `%XY` escapes but leaves `+` intact. -/
def specPercentDecode : List Char → Option (List Char)
  | [] => some []
  | '%' :: a :: b :: rest =>
      if ishex a && ishex b then
        (specPercentDecode rest).map (fun l => Char.ofNat (16 * unhex a + unhex b) :: l)
      else none
  | '%' :: _ => none
  | c :: rest => (specPercentDecode rest).map (fun l => c :: l)

/-- Replace `+` by a space, leaving every other character unchanged. -/
def plusToSpace (c : Char) : Char :=
  if c = '+' then ' ' else c

/-- The resource data model (`DomainResourceModel`), timeouts block elided. -/
structure DomainResourceModel where
  domain : String
  token : String
  id : String
deriving DecidableEq

/-- A structured record of one `resp.Diagnostics.AddError` call. -/
inductive Diag where
  | createClientError (e : GoErr)
  | decodeError (rawId : String)
  | deleteClientError (e : GoErr)
  | importGetError (e : GoErr)
  | importGetTokenError (e : GoErr)
deriving DecidableEq

/-- Observable outcome of `DomainResource.Create`: the diagnostics added, the
state written (`none` when `resp.State.Set` never ran), whether the bare
`return` in the `ctx.Done()` branch executed, and how many backoff sleeps
completed. -/
structure CreateResponse where
  diagnostics : List Diag
  state : Option DomainResourceModel
  canceled : Bool
  sleeps : Nat
deriving DecidableEq

/-- Observable outcome of `DomainResource.Delete`. -/
structure DeleteResponse where
  diagnostics : List Diag
  canceled : Bool
  sleeps : Nat
deriving DecidableEq

/-- The retry loop of `DomainResource.Create`. `insert k` is the result of
the `Insert(...).Do()` call on attempt `k` (`Except.ok` carries `result.Id`);
`deadline` is the context timeout in seconds and `elapsed` the time consumed
so far. -/
def createLoop (insert : Nat → Except GoErr String) (domain token : String)
    (deadline attempt elapsed : Nat) : CreateResponse :=
  match insert attempt with
  | .error e =>
      if checkErr e errTokenNotFound then
        if deadline ≤ elapsed + sleepSeconds then
          { diagnostics := [], state := none, canceled := true, sleeps := 0 }
        else
          let r := createLoop insert domain token deadline (attempt + 1) (elapsed + sleepSeconds)
          { r with sleeps := r.sleeps + 1 }
      else
        { diagnostics := [Diag.createClientError e], state := none,
          canceled := false, sleeps := 0 }
  | .ok rawId =>
      match queryUnescape rawId with
      | some id =>
          { diagnostics := [], state := some ⟨domain, token, id⟩,
            canceled := false, sleeps := 0 }
      | none =>
          { diagnostics := [Diag.decodeError rawId], state := none,
            canceled := false, sleeps := 0 }
termination_by deadline - elapsed
decreasing_by
  simp [sleepSeconds] at *
  omega

/-- The retry loop of `DomainResource.Delete`. `del k` is the error (if any)
of the `Delete(...).Do()` call on attempt `k`. -/
def deleteLoop (del : Nat → Option GoErr) (deadline attempt elapsed : Nat) :
    DeleteResponse :=
  match del attempt with
  | some e =>
      if checkErr e errTokenExists then
        if deadline ≤ elapsed + sleepSeconds then
          { diagnostics := [], canceled := true, sleeps := 0 }
        else
          let r := deleteLoop del deadline (attempt + 1) (elapsed + sleepSeconds)
          { r with sleeps := r.sleeps + 1 }
      else
        { diagnostics := [Diag.deleteClientError e], canceled := false, sleeps := 0 }
  | none => { diagnostics := [], canceled := false, sleeps := 0 }
termination_by deadline - elapsed
decreasing_by
  simp [sleepSeconds] at *
  omega

/-- `timeouts.Create(ctx, data.Timeouts, sleepSeconds*5)`: the configured
create timeout or the default. -/
def createTimeout (configured : Option Nat) : Nat :=
  configured.getD (sleepSeconds * 5)

/-- `timeouts.Delete(ctx, data.Timeouts, sleepSeconds*5)`. -/
def deleteTimeout (configured : Option Nat) : Nat :=
  configured.getD (sleepSeconds * 5)

/-- `timeouts.Read(ctx, data.Timeouts, sleepSeconds*5)` in
`DomainResource.Read`. -/
def resourceReadTimeout (configured : Option Nat) : Nat :=
  configured.getD (sleepSeconds * 5)

/-- `timeouts.Read(ctx, data.Timeouts, 60*time.Second)` in the
`DomainDataSource.Read` and `DNSTokenDataSource.Read` data sources. -/
def dataSourceReadTimeout (configured : Option Nat) : Nat :=
  configured.getD 60

/-- `DomainResource.Create` for plan data `(domain, token)` and an optional
configured create timeout. -/
def create (insert : Nat → Except GoErr String) (domain token : String)
    (configured : Option Nat) : CreateResponse :=
  createLoop insert domain token (createTimeout configured) 0 0

/-- `DomainResource.Delete` for an optional configured delete timeout. -/
def delete (del : Nat → Option GoErr) (configured : Option Nat) : DeleteResponse :=
  deleteLoop del (deleteTimeout configured) 0 0

/-- Go `strings.TrimPrefix s pfx`: drop the prefix when present, otherwise
return `s` unchanged. Stated on the character lists underlying the strings. -/
def trimPrefix (s pfx : String) : String :=
  if pfx.toList.isPrefixOf s.toList then ⟨s.toList.drop pfx.toList.length⟩ else s

/-- Observable outcome of `DomainResource.ImportState`. -/
structure ImportResponse where
  diagnostics : List Diag
  state : Option DomainResourceModel
deriving DecidableEq

/-- `DomainResource.ImportState`: `get s` is the error (if any) of
`WebResource.Get(s).Do()`, `getToken dom` the result of the
`GetToken(...)` call (`Except.ok` carries `result.Token`), and `reqID` the
external identifier being imported. -/
def importState (get : String → Option GoErr) (getToken : String → Except GoErr String)
    (reqID : String) : ImportResponse :=
  match get reqID with
  | some e => { diagnostics := [Diag.importGetError e], state := none }
  | none =>
      let domain := trimPrefix reqID "dns://"
      match getToken domain with
      | .error e => { diagnostics := [Diag.importGetTokenError e], state := none }
      | .ok token => { diagnostics := [], state := some ⟨domain, token, reqID⟩ }

/-- The result of one `Insert` attempt is a transient precondition failure
(the create loop will sleep and retry). -/
def transientCreate : Except GoErr String → Bool
  | .error e => checkErr e errTokenNotFound
  | .ok _ => false

/-- The result of one `Delete` attempt is a transient precondition failure. -/
def transientDelete : Option GoErr → Bool
  | some e => checkErr e errTokenExists
  | none => false

/-! Unfolding lemmas for the two retry loops. -/

theorem createLoop_ok (insert : Nat → Except GoErr String) (domain token : String)
    (deadline attempt elapsed : Nat) (rawId id : String)
    (h1 : insert attempt = .ok rawId) (h2 : queryUnescape rawId = some id) :
    createLoop insert domain token deadline attempt elapsed =
      { diagnostics := [], state := some ⟨domain, token, id⟩, canceled := false, sleeps := 0 } := by
  unfold createLoop
  rw [h1]
  simp [h2]

theorem createLoop_decodeFail (insert : Nat → Except GoErr String) (domain token : String)
    (deadline attempt elapsed : Nat) (rawId : String)
    (h1 : insert attempt = .ok rawId) (h2 : queryUnescape rawId = none) :
    createLoop insert domain token deadline attempt elapsed =
      { diagnostics := [Diag.decodeError rawId], state := none, canceled := false, sleeps := 0 } := by
  unfold createLoop
  rw [h1]
  simp [h2]

theorem createLoop_permanent (insert : Nat → Except GoErr String) (domain token : String)
    (deadline attempt elapsed : Nat) (e : GoErr)
    (h1 : insert attempt = .error e) (h2 : checkErr e errTokenNotFound = false) :
    createLoop insert domain token deadline attempt elapsed =
      { diagnostics := [Diag.createClientError e], state := none, canceled := false, sleeps := 0 } := by
  unfold createLoop
  rw [h1]
  simp [h2]

theorem createLoop_cancel (insert : Nat → Except GoErr String) (domain token : String)
    (deadline attempt elapsed : Nat) (e : GoErr)
    (h1 : insert attempt = .error e) (h2 : checkErr e errTokenNotFound = true)
    (h3 : deadline ≤ elapsed + sleepSeconds) :
    createLoop insert domain token deadline attempt elapsed =
      { diagnostics := [], state := none, canceled := true, sleeps := 0 } := by
  unfold createLoop
  rw [h1]
  simp [h2, h3]

theorem createLoop_retry (insert : Nat → Except GoErr String) (domain token : String)
    (deadline attempt elapsed : Nat) (e : GoErr)
    (h1 : insert attempt = .error e) (h2 : checkErr e errTokenNotFound = true)
    (h3 : elapsed + sleepSeconds < deadline) :
    createLoop insert domain token deadline attempt elapsed =
      (let r := createLoop insert domain token deadline (attempt + 1) (elapsed + sleepSeconds)
       { r with sleeps := r.sleeps + 1 }) := by
  conv_lhs => unfold createLoop
  rw [h1]
  simp [h2, Nat.not_le.mpr h3]

theorem deleteLoop_success (del : Nat → Option GoErr) (deadline attempt elapsed : Nat)
    (h1 : del attempt = none) :
    deleteLoop del deadline attempt elapsed =
      { diagnostics := [], canceled := false, sleeps := 0 } := by
  unfold deleteLoop
  rw [h1]

theorem deleteLoop_permanent (del : Nat → Option GoErr) (deadline attempt elapsed : Nat)
    (e : GoErr) (h1 : del attempt = some e) (h2 : checkErr e errTokenExists = false) :
    deleteLoop del deadline attempt elapsed =
      { diagnostics := [Diag.deleteClientError e], canceled := false, sleeps := 0 } := by
  unfold deleteLoop
  rw [h1]
  simp [h2]

theorem deleteLoop_cancel (del : Nat → Option GoErr) (deadline attempt elapsed : Nat)
    (e : GoErr) (h1 : del attempt = some e) (h2 : checkErr e errTokenExists = true)
    (h3 : deadline ≤ elapsed + sleepSeconds) :
    deleteLoop del deadline attempt elapsed =
      { diagnostics := [], canceled := true, sleeps := 0 } := by
  unfold deleteLoop
  rw [h1]
  simp [h2, h3]

theorem deleteLoop_retry (del : Nat → Option GoErr) (deadline attempt elapsed : Nat)
    (e : GoErr) (h1 : del attempt = some e) (h2 : checkErr e errTokenExists = true)
    (h3 : elapsed + sleepSeconds < deadline) :
    deleteLoop del deadline attempt elapsed =
      (let r := deleteLoop del deadline (attempt + 1) (elapsed + sleepSeconds)
       { r with sleeps := r.sleeps + 1 }) := by
  conv_lhs => unfold deleteLoop
  rw [h1]
  simp [h2, Nat.not_le.mpr h3]

/-! General lemmas about the retry loops. -/

theorem create_sleeps_le (insert : Nat → Except GoErr String) (domain token : String)
    (deadline : Nat) :
    ∀ attempt elapsed, elapsed ≤ deadline →
      elapsed + sleepSeconds * (createLoop insert domain token deadline attempt elapsed).sleeps ≤ deadline := by
  intro attempt elapsed
  induction attempt, elapsed using createLoop.induct insert domain token deadline with
  | case1 attempt elapsed e he hck hto =>
      intro hle
      rw [createLoop_cancel insert domain token deadline attempt elapsed e he hck hto]
      simpa using hle
  | case2 attempt elapsed e he hck hto ih =>
      intro _
      rw [createLoop_retry insert domain token deadline attempt elapsed e he hck (Nat.lt_of_not_le hto)]
      have h60 : elapsed + sleepSeconds < deadline := Nat.lt_of_not_le hto
      have := ih (Nat.le_of_lt h60)
      simp only [Nat.mul_succ] at this ⊢
      omega
  | case3 attempt elapsed e he hck =>
      intro hle
      rw [createLoop_permanent insert domain token deadline attempt elapsed e he
        (Bool.eq_false_iff.mpr (fun h => hck h))]
      simpa using hle
  | case4 attempt elapsed rawId hok id hdec =>
      intro hle
      rw [createLoop_ok insert domain token deadline attempt elapsed rawId id hok hdec]
      simpa using hle
  | case5 attempt elapsed rawId hok hdec =>
      intro hle
      rw [createLoop_decodeFail insert domain token deadline attempt elapsed rawId hok hdec]
      simpa using hle

theorem delete_sleeps_le (del : Nat → Option GoErr) (deadline : Nat) :
    ∀ attempt elapsed, elapsed ≤ deadline →
      elapsed + sleepSeconds * (deleteLoop del deadline attempt elapsed).sleeps ≤ deadline := by
  intro attempt elapsed
  induction attempt, elapsed using deleteLoop.induct del deadline with
  | case1 attempt elapsed e he hck hto =>
      intro hle
      rw [deleteLoop_cancel del deadline attempt elapsed e he hck hto]
      simpa using hle
  | case2 attempt elapsed e he hck hto ih =>
      intro _
      rw [deleteLoop_retry del deadline attempt elapsed e he hck (Nat.lt_of_not_le hto)]
      have h60 : elapsed + sleepSeconds < deadline := Nat.lt_of_not_le hto
      have := ih (Nat.le_of_lt h60)
      simp only [Nat.mul_succ] at this ⊢
      omega
  | case3 attempt elapsed e he hck =>
      intro hle
      rw [deleteLoop_permanent del deadline attempt elapsed e he
        (Bool.eq_false_iff.mpr (fun h => hck h))]
      simpa using hle
  | case4 attempt elapsed he =>
      intro hle
      rw [deleteLoop_success del deadline attempt elapsed he]
      simpa using hle

theorem create_success_general (insert : Nat → Except GoErr String) (domain token : String)
    (deadline : Nat) (rawId id : String) :
    ∀ N attempt elapsed,
      (∀ k, k < N → transientCreate (insert (attempt + k)) = true) →
      insert (attempt + N) = .ok rawId → queryUnescape rawId = some id →
      elapsed + sleepSeconds * N < deadline →
      createLoop insert domain token deadline attempt elapsed =
        { diagnostics := [], state := some ⟨domain, token, id⟩, canceled := false, sleeps := N } := by
  intro N
  induction N with
  | zero =>
      intro attempt elapsed _ hok hdec _
      exact createLoop_ok insert domain token deadline attempt elapsed rawId id
        (by simpa using hok) hdec
  | succ n ih =>
      intro attempt elapsed htr hok hdec hlt
      have h0 : transientCreate (insert attempt) = true := by
        simpa using htr 0 (Nat.succ_pos n)
      obtain ⟨e, he, hck⟩ : ∃ e, insert attempt = .error e ∧ checkErr e errTokenNotFound = true := by
        cases hi : insert attempt with
        | error e => exact ⟨e, rfl, by simpa [transientCreate, hi] using h0⟩
        | ok v => simp [transientCreate, hi] at h0
      have hstep : elapsed + sleepSeconds < deadline := by
        have : sleepSeconds * 1 ≤ sleepSeconds * (n + 1) :=
          Nat.mul_le_mul_left _ (Nat.succ_le_succ (Nat.zero_le n))
        omega
      rw [createLoop_retry insert domain token deadline attempt elapsed e he hck hstep]
      have hrec := ih (attempt + 1) (elapsed + sleepSeconds)
        (fun k hk => by
          have := htr (k + 1) (Nat.succ_lt_succ hk)
          simpa [Nat.add_assoc, Nat.add_comm 1 k] using this)
        (by simpa [Nat.add_assoc, Nat.add_comm 1 n] using hok)
        hdec
        (by simp only [Nat.mul_succ] at hlt; omega)
      rw [hrec]

theorem create_cancel_general (insert : Nat → Except GoErr String) (domain token : String)
    (deadline : Nat) :
    ∀ N attempt elapsed,
      (∀ k, k < N → transientCreate (insert (attempt + k)) = true) →
      0 < N → deadline ≤ elapsed + sleepSeconds * N →
      (createLoop insert domain token deadline attempt elapsed).diagnostics = [] ∧
      (createLoop insert domain token deadline attempt elapsed).state = none ∧
      (createLoop insert domain token deadline attempt elapsed).canceled = true := by
  intro N
  induction N with
  | zero => intro _ _ _ h; exact absurd h (Nat.lt_irrefl 0)
  | succ n ih =>
      intro attempt elapsed htr _ hto
      have h0 : transientCreate (insert attempt) = true := by
        simpa using htr 0 (Nat.succ_pos n)
      obtain ⟨e, he, hck⟩ : ∃ e, insert attempt = .error e ∧ checkErr e errTokenNotFound = true := by
        cases hi : insert attempt with
        | error e => exact ⟨e, rfl, by simpa [transientCreate, hi] using h0⟩
        | ok v => simp [transientCreate, hi] at h0
      by_cases hc : deadline ≤ elapsed + sleepSeconds
      · rw [createLoop_cancel insert domain token deadline attempt elapsed e he hck hc]
        exact ⟨rfl, rfl, rfl⟩
      · have hlt : elapsed + sleepSeconds < deadline := Nat.lt_of_not_le hc
        rw [createLoop_retry insert domain token deadline attempt elapsed e he hck hlt]
        have hn : 0 < n := by
          rcases Nat.eq_zero_or_pos n with h | h
          · subst h; simp only [Nat.mul_succ, Nat.mul_zero, Nat.zero_add] at hto; omega
          · exact h
        have := ih (attempt + 1) (elapsed + sleepSeconds)
          (fun k hk => by
            have := htr (k + 1) (Nat.succ_lt_succ hk)
            simpa [Nat.add_assoc, Nat.add_comm 1 k] using this)
          hn
          (by simp only [Nat.mul_succ] at hto; omega)
        exact this

theorem delete_cancel_general (del : Nat → Option GoErr) (deadline : Nat) :
    ∀ N attempt elapsed,
      (∀ k, k < N → transientDelete (del (attempt + k)) = true) →
      0 < N → deadline ≤ elapsed + sleepSeconds * N →
      (deleteLoop del deadline attempt elapsed).diagnostics = [] ∧
      (deleteLoop del deadline attempt elapsed).canceled = true := by
  intro N
  induction N with
  | zero => intro _ _ _ h; exact absurd h (Nat.lt_irrefl 0)
  | succ n ih =>
      intro attempt elapsed htr _ hto
      have h0 : transientDelete (del attempt) = true := by
        simpa using htr 0 (Nat.succ_pos n)
      obtain ⟨e, he, hck⟩ : ∃ e, del attempt = some e ∧ checkErr e errTokenExists = true := by
        cases hi : del attempt with
        | some e => exact ⟨e, rfl, by simpa [transientDelete, hi] using h0⟩
        | none => simp [transientDelete, hi] at h0
      by_cases hc : deadline ≤ elapsed + sleepSeconds
      · rw [deleteLoop_cancel del deadline attempt elapsed e he hck hc]
        exact ⟨rfl, rfl⟩
      · have hlt : elapsed + sleepSeconds < deadline := Nat.lt_of_not_le hc
        rw [deleteLoop_retry del deadline attempt elapsed e he hck hlt]
        have hn : 0 < n := by
          rcases Nat.eq_zero_or_pos n with h | h
          · subst h; simp only [Nat.mul_succ, Nat.mul_zero, Nat.zero_add] at hto; omega
          · exact h
        have := ih (attempt + 1) (elapsed + sleepSeconds)
          (fun k hk => by
            have := htr (k + 1) (Nat.succ_lt_succ hk)
            simpa [Nat.add_assoc, Nat.add_comm 1 k] using this)
          hn
          (by simp only [Nat.mul_succ] at hto; omega)
        exact this

theorem create_state_provenance (insert : Nat → Except GoErr String) (domain token : String)
    (deadline : Nat) :
    ∀ attempt elapsed (m : DomainResourceModel),
      (createLoop insert domain token deadline attempt elapsed).state = some m →
      m.domain = domain ∧ m.token = token ∧
      (createLoop insert domain token deadline attempt elapsed).diagnostics = [] ∧
      (createLoop insert domain token deadline attempt elapsed).canceled = false ∧
      ∃ k rawId, insert k = .ok rawId ∧ queryUnescape rawId = some m.id := by
  intro attempt elapsed
  induction attempt, elapsed using createLoop.induct insert domain token deadline with
  | case1 attempt elapsed e he hck hto =>
      intro m hm
      rw [createLoop_cancel insert domain token deadline attempt elapsed e he hck hto] at hm
      simp at hm
  | case2 attempt elapsed e he hck hto ih =>
      intro m hm
      rw [createLoop_retry insert domain token deadline attempt elapsed e he hck
        (Nat.lt_of_not_le hto)] at hm ⊢
      exact ih m hm
  | case3 attempt elapsed e he hck =>
      intro m hm
      rw [createLoop_permanent insert domain token deadline attempt elapsed e he
        (Bool.eq_false_iff.mpr (fun h => hck h))] at hm
      simp at hm
  | case4 attempt elapsed rawId hok id hdec =>
      intro m hm
      rw [createLoop_ok insert domain token deadline attempt elapsed rawId id hok hdec] at hm ⊢
      simp at hm
      subst hm
      exact ⟨rfl, rfl, rfl, rfl, attempt, rawId, hok, hdec⟩
  | case5 attempt elapsed rawId hok hdec =>
      intro m hm
      rw [createLoop_decodeFail insert domain token deadline attempt elapsed rawId hok hdec] at hm
      simp at hm

theorem ishex_plusToSpace (c : Char) : ishex (plusToSpace c) = ishex c := by
  unfold plusToSpace
  split
  · next heq => subst heq; decide
  · rfl

theorem plusToSpace_of_ishex {c : Char} (h : ishex c = true) : plusToSpace c = c := by
  unfold plusToSpace
  split
  · next heq => subst heq; exact absurd h (by decide)
  · rfl

theorem unescape_eq_spec : ∀ l : List Char,
    unescapeList l = specPercentDecode (l.map plusToSpace) := by
  intro l
  induction l using unescapeList.induct with
  | case1 => rfl
  | case2 a b rest hhex ih =>
      rw [Bool.and_eq_true] at hhex
      simp only [List.map_cons]
      rw [show plusToSpace '%' = '%' by decide, plusToSpace_of_ishex hhex.1,
        plusToSpace_of_ishex hhex.2]
      simp only [unescapeList, specPercentDecode, hhex.1, hhex.2, Bool.and_self, if_true]
      rw [ih]
  | case3 a b rest hne =>
      simp only [List.map_cons]
      rw [show plusToSpace '%' = '%' by decide]
      simp only [unescapeList, specPercentDecode, ishex_plusToSpace]
      rw [if_neg hne, if_neg hne]
  | case4 tail h =>
      match tail with
      | [] => rfl
      | [x] =>
          simp only [List.map_cons, List.map_nil]
          rw [show plusToSpace '%' = '%' by decide]
          rfl
      | x :: y :: ys => exact (h x y ys rfl).elim
  | case5 rest ih =>
      simp only [List.map_cons]
      rw [show plusToSpace '+' = ' ' by decide]
      simp only [unescapeList]
      rw [ih]
      rfl
  | case6 c rest h1 h2 h3 ih =>
      simp only [List.map_cons]
      rw [show plusToSpace c = c by unfold plusToSpace; rw [if_neg (fun h => h3 h)]]
      rw [unescapeList.eq_5 c rest h1 h2 h3,
        specPercentDecode.eq_4 c (List.map plusToSpace rest)
          (fun a b r1 hcp _ => (h2 hcp).elim) h2, ih]

/-! Claim theorems. -/

/-- Claim C1, amended: when Insert fails with the transient token-not-found
error exactly N times and then succeeds, and the N fixed 60-second backoffs
fit strictly within the deadline, create succeeds with the record's id equal
to the URL-decoded identifier of the final successful Insert; when the N
backoffs meet or exceed the deadline, create terminates without persisting
any identifier and without surfacing any error (silent cancellation in the
`ctx.Done()` branch), not with a distinct timeout error. -/
theorem create_retry_bound (insert : Nat → Except GoErr String) (domain token : String)
    (N deadline : Nat) (rawId id : String) :
    ((∀ k, k < N → transientCreate (insert k) = true) → insert N = Except.ok rawId →
      queryUnescape rawId = some id → sleepSeconds * N < deadline →
      createLoop insert domain token deadline 0 0 =
        { diagnostics := [], state := some ⟨domain, token, id⟩, canceled := false, sleeps := N })
  ∧ ((∀ k, k < N → transientCreate (insert k) = true) → 0 < N → deadline ≤ sleepSeconds * N →
      (createLoop insert domain token deadline 0 0).diagnostics = [] ∧
      (createLoop insert domain token deadline 0 0).state = none ∧
      (createLoop insert domain token deadline 0 0).canceled = true) := by
  constructor
  · intro htr hok hdec hlt
    exact create_success_general insert domain token deadline rawId id N 0 0
      (fun k hk => by simpa using htr k hk) (by simpa using hok) hdec (by simpa using hlt)
  · intro htr hN hto
    exact create_cancel_general insert domain token deadline N 0 0
      (fun k hk => by simpa using htr k hk) hN (by simpa using hto)

/-- Claim C1, counterexample to the claim as stated: with an Insert stub that
fails once with the transient error and would then succeed, and a 60-second
deadline (so N·60s ≥ deadline), the create returns through the `ctx.Done()`
branch with an empty diagnostics list — no timeout error of any kind is
surfaced to the caller, refuting "the create fails with TimeoutError". -/
theorem create_timeout_silent_cex :
    createLoop (fun k => if k = 0 then Except.error (GoErr.api ⟨400, errTokenNotFound⟩)
        else Except.ok "ok") "example.com" "tok" 60 0 0 =
      { diagnostics := [], state := none, canceled := true, sleeps := 0 } :=
  createLoop_cancel _ "example.com" "tok" 60 0 0 (GoErr.api ⟨400, errTokenNotFound⟩)
    rfl (by decide) (by decide)

/-- Claim C1, witness: two transient failures then success within a
300-second deadline yields the decoded identifier after exactly 2 sleeps. -/
theorem create_retry_bound_witness :
    createLoop (fun k => if k < 2 then Except.error (GoErr.api ⟨400, errTokenNotFound⟩)
        else Except.ok "id%3D1") "example.com" "tok" 300 0 0 =
      { diagnostics := [], state := some ⟨"example.com", "tok", "id=1"⟩,
        canceled := false, sleeps := 2 } :=
  (create_retry_bound (fun k => if k < 2 then Except.error (GoErr.api ⟨400, errTokenNotFound⟩)
      else Except.ok "id%3D1") "example.com" "tok" 2 300 "id%3D1" "id=1").1
    (by decide) rfl (by decide) (by decide)

/-- Claim C2: the delete transition is symmetric to create — a transient
token-still-present error within the deadline sleeps one fixed backoff and
retries (sleep counter incremented), any other error terminates immediately
with that error surfaced as a client-error diagnostic, and absence of error
terminates as success with no diagnostics. -/
theorem delete_transition (del : Nat → Option GoErr) (deadline attempt elapsed : Nat) :
    (∀ e, del attempt = some e → checkErr e errTokenExists = true →
       elapsed + sleepSeconds < deadline →
       deleteLoop del deadline attempt elapsed =
         { deleteLoop del deadline (attempt + 1) (elapsed + sleepSeconds) with
           sleeps := (deleteLoop del deadline (attempt + 1) (elapsed + sleepSeconds)).sleeps + 1 })
  ∧ (∀ e, del attempt = some e → checkErr e errTokenExists = false →
       deleteLoop del deadline attempt elapsed =
         { diagnostics := [Diag.deleteClientError e], canceled := false, sleeps := 0 })
  ∧ (del attempt = none →
       deleteLoop del deadline attempt elapsed =
         { diagnostics := [], canceled := false, sleeps := 0 }) :=
  ⟨fun e he hck hlt => deleteLoop_retry del deadline attempt elapsed e he hck hlt,
   fun e he hck => deleteLoop_permanent del deadline attempt elapsed e he hck,
   fun he => deleteLoop_success del deadline attempt elapsed he⟩

/-- Claim C2, witness: the three delete transitions at concrete stubs. -/
theorem delete_transition_witness :
    deleteLoop (fun _ => some (GoErr.api ⟨400, errTokenExists⟩)) 300 0 0 =
      { deleteLoop (fun _ => some (GoErr.api ⟨400, errTokenExists⟩)) 300 1 60 with
        sleeps := (deleteLoop (fun _ => some (GoErr.api ⟨400, errTokenExists⟩)) 300 1 60).sleeps + 1 }
  ∧ deleteLoop (fun _ => some (GoErr.plain "boom")) 300 0 0 =
      { diagnostics := [Diag.deleteClientError (GoErr.plain "boom")], canceled := false, sleeps := 0 }
  ∧ deleteLoop (fun _ => none) 300 0 0 =
      { diagnostics := [], canceled := false, sleeps := 0 } :=
  ⟨(delete_transition _ 300 0 0).1 _ rfl (by decide) (by decide),
   (delete_transition _ 300 0 0).2.1 _ rfl (by decide),
   (delete_transition _ 300 0 0).2.2 rfl⟩

/-- Claim C3: an error is classified transient by `checkErr` iff its chain
contains a `googleapi.Error` with code exactly 400 and a message containing
the operation's transient substring; a 400 error whose message does not
match is permanent, and create or delete receiving one at the first attempt
fails immediately with zero backoff sleeps. -/
theorem checkErr_classification :
    (∀ (e : GoErr) (msg : String), checkErr e msg = true ↔
       ∃ g, e = GoErr.api g ∧ g.code = 400 ∧ goContains g.message msg = true)
  ∧ (∀ (insert : Nat → Except GoErr String) (domain token : String) (deadline : Nat) e,
       insert 0 = Except.error e → checkErr e errTokenNotFound = false →
       createLoop insert domain token deadline 0 0 =
         { diagnostics := [Diag.createClientError e], state := none, canceled := false, sleeps := 0 })
  ∧ (∀ (del : Nat → Option GoErr) (deadline : Nat) e,
       del 0 = some e → checkErr e errTokenExists = false →
       deleteLoop del deadline 0 0 =
         { diagnostics := [Diag.deleteClientError e], canceled := false, sleeps := 0 }) := by
  refine ⟨fun e msg => ?_,
    fun insert domain token deadline e he hck =>
      createLoop_permanent insert domain token deadline 0 0 e he hck,
    fun del deadline e he hck => deleteLoop_permanent del deadline 0 0 e he hck⟩
  cases e with
  | api g =>
      simp only [checkErr, Bool.and_eq_true, beq_iff_eq]
      constructor
      · rintro ⟨h1, h2⟩; exact ⟨g, rfl, h1, h2⟩
      · rintro ⟨g2, hg, h1, h2⟩
        injection hg with h
        subst h
        exact ⟨h1, h2⟩
  | plain s =>
      constructor
      · intro h; simp [checkErr] at h
      · rintro ⟨g, hg, -, -⟩; exact GoErr.noConfusion hg

/-- Claim C3, witness: a 400 error with a non-matching message is permanent
for both loops, with zero sleeps. -/
theorem checkErr_classification_witness :
    (checkErr (GoErr.api ⟨400, "generic bad request"⟩) errTokenNotFound = true ↔
       ∃ g, GoErr.api ⟨400, "generic bad request"⟩ = GoErr.api g ∧ g.code = 400 ∧
         goContains g.message errTokenNotFound = true)
  ∧ createLoop (fun _ => Except.error (GoErr.api ⟨400, "generic bad request"⟩))
      "example.com" "tok" 300 0 0 =
      { diagnostics := [Diag.createClientError (GoErr.api ⟨400, "generic bad request"⟩)],
        state := none, canceled := false, sleeps := 0 }
  ∧ deleteLoop (fun _ => some (GoErr.api ⟨400, "generic bad request"⟩)) 300 0 0 =
      { diagnostics := [Diag.deleteClientError (GoErr.api ⟨400, "generic bad request"⟩)],
        canceled := false, sleeps := 0 } :=
  ⟨checkErr_classification.1 _ errTokenNotFound,
   checkErr_classification.2.1 _ "example.com" "tok" 300 _ rfl (by decide),
   checkErr_classification.2.2 _ 300 _ rfl (by decide)⟩

/-- Claim C4, amended: when the deadline elapses while waiting for
propagation, create and delete terminate through the bare `return` in the
`ctx.Done()` select branch: no diagnostic of any kind is added — there is no
distinct timeout error, the expiry is silent. -/
theorem timeout_silent_no_error (insert : Nat → Except GoErr String) (del : Nat → Option GoErr)
    (domain token : String) (N deadline : Nat) :
    ((∀ k, k < N → transientCreate (insert k) = true) → 0 < N → deadline ≤ sleepSeconds * N →
       (createLoop insert domain token deadline 0 0).diagnostics = [] ∧
       (createLoop insert domain token deadline 0 0).canceled = true)
  ∧ ((∀ k, k < N → transientDelete (del k) = true) → 0 < N → deadline ≤ sleepSeconds * N →
       (deleteLoop del deadline 0 0).diagnostics = [] ∧
       (deleteLoop del deadline 0 0).canceled = true) := by
  constructor
  · intro htr hN hto
    have := create_cancel_general insert domain token deadline N 0 0
      (fun k hk => by simpa using htr k hk) hN (by simpa using hto)
    exact ⟨this.1, this.2.2⟩
  · intro htr hN hto
    exact delete_cancel_general del deadline N 0 0
      (fun k hk => by simpa using htr k hk) hN (by simpa using hto)

/-- Claim C4, counterexample to the claim as stated: a delete whose deadline
elapses while waiting for propagation terminates with an empty diagnostics
list — nothing distinguishable (indeed nothing at all) is reported, refuting
"reports a distinct TimeoutError outcome rather than terminating silently". -/
theorem delete_timeout_silent_cex :
    deleteLoop (fun k => if k = 0 then some (GoErr.api ⟨400, errTokenExists⟩) else none)
      60 0 0 =
      { diagnostics := [], canceled := true, sleeps := 0 } :=
  deleteLoop_cancel _ 60 0 0 (GoErr.api ⟨400, errTokenExists⟩) rfl (by decide) (by decide)

/-- Claim C4, witness: both loops at deadline 60 with one transient failure
terminate silently. -/
theorem timeout_silent_no_error_witness :
    ((createLoop (fun _ => Except.error (GoErr.api ⟨400, errTokenNotFound⟩))
        "example.com" "tok" 60 0 0).diagnostics = [] ∧
     (createLoop (fun _ => Except.error (GoErr.api ⟨400, errTokenNotFound⟩))
        "example.com" "tok" 60 0 0).canceled = true)
  ∧ ((deleteLoop (fun _ => some (GoErr.api ⟨400, errTokenExists⟩)) 60 0 0).diagnostics = [] ∧
     (deleteLoop (fun _ => some (GoErr.api ⟨400, errTokenExists⟩)) 60 0 0).canceled = true) :=
  ⟨(timeout_silent_no_error (fun _ => Except.error (GoErr.api ⟨400, errTokenNotFound⟩))
      (fun _ => some (GoErr.api ⟨400, errTokenExists⟩)) "example.com" "tok" 1 60).1
      (by decide) (by decide) (by decide),
   (timeout_silent_no_error (fun _ => Except.error (GoErr.api ⟨400, errTokenNotFound⟩))
      (fun _ => some (GoErr.api ⟨400, errTokenExists⟩)) "example.com" "tok" 1 60).2
      (by decide) (by decide) (by decide)⟩

/-- Claim C5, amended: the resource's create, read and delete timeouts all
default to 300 seconds (`sleepSeconds * 5`) and the data sources' reads
default to 60 seconds; a caller-supplied value overrides the default; and
the bound covers the entire retry loop — the total time slept by either loop
never exceeds the deadline. -/
theorem operation_timeout_bounds :
    (createTimeout none = 300 ∧ deleteTimeout none = 300 ∧ resourceReadTimeout none = 300 ∧
       dataSourceReadTimeout none = 60)
  ∧ (∀ n, createTimeout (some n) = n ∧ deleteTimeout (some n) = n ∧
       resourceReadTimeout (some n) = n ∧ dataSourceReadTimeout (some n) = n)
  ∧ (∀ (insert : Nat → Except GoErr String) (domain token : String) (deadline : Nat),
       sleepSeconds * (createLoop insert domain token deadline 0 0).sleeps ≤ deadline)
  ∧ (∀ (del : Nat → Option GoErr) (deadline : Nat),
       sleepSeconds * (deleteLoop del deadline 0 0).sleeps ≤ deadline) := by
  refine ⟨by decide, fun n => ⟨rfl, rfl, rfl, rfl⟩, ?_, ?_⟩
  · intro insert domain token deadline
    simpa using create_sleeps_le insert domain token deadline 0 0 (Nat.zero_le _)
  · intro del deadline
    simpa using delete_sleeps_le del deadline 0 0 (Nat.zero_le _)

/-- Claim C5, counterexample to the claim as stated: the domain resource's
read operation defaults to `sleepSeconds * 5` = 300 seconds, not the claimed
60 seconds (only the data sources' reads default to 60). -/
theorem resource_read_default_cex :
    resourceReadTimeout none = 300 ∧ ¬ resourceReadTimeout none = 60 := by
  decide

/-- Claim C6, amended: `ImportState` performs no format validation on the
external identifier — an identifier without the `dns://` prefix is passed
unchanged to `Get` and, when the prefix is absent, `TrimPrefix` leaves it
unchanged, so the identifier itself is used as the domain. The import fails
only when a remote call fails (surfaced as a client error, not as an invalid
format error), and when the remote calls succeed a record is synthesized
from the malformed identifier. -/
theorem import_no_format_validation (get : String → Option GoErr)
    (getToken : String → Except GoErr String) (reqID : String)
    (hmal : "dns://".toList.isPrefixOf reqID.toList = false) :
    trimPrefix reqID "dns://" = reqID
  ∧ (∀ e, get reqID = some e →
       importState get getToken reqID =
         { diagnostics := [Diag.importGetError e], state := none })
  ∧ (∀ tok, get reqID = none → getToken reqID = Except.ok tok →
       importState get getToken reqID =
         { diagnostics := [], state := some ⟨reqID, tok, reqID⟩ }) := by
  have htrim : trimPrefix reqID "dns://" = reqID := by
    unfold trimPrefix
    rw [hmal]
    simp
  refine ⟨htrim, fun e he => ?_, fun tok hg ht => ?_⟩
  · unfold importState
    rw [he]
  · unfold importState
    rw [hg]
    simp only []
    rw [htrim, ht]

/-- Claim C6, counterexample to the claim as stated: importing the malformed
identifier "garbage" against a client whose remote calls succeed produces no
error at all and synthesizes a record from the malformed identifier,
refuting "fails fast with a descriptive error and does not proceed to
synthesize a record". -/
theorem import_no_validation_cex :
    importState (fun _ => none) (fun _ => Except.ok "tok") "garbage" =
      { diagnostics := [], state := some ⟨"garbage", "tok", "garbage"⟩ } := by
  decide

/-- Claim C6, witness: both remote-failure and remote-success behavior on
the malformed identifier "garbage". -/
theorem import_no_format_validation_witness :
    trimPrefix "garbage" "dns://" = "garbage"
  ∧ importState (fun _ => some (GoErr.plain "nf")) (fun _ => Except.ok "tok") "garbage" =
      { diagnostics := [Diag.importGetError (GoErr.plain "nf")], state := none }
  ∧ importState (fun _ => none) (fun _ => Except.ok "tok2") "garbage" =
      { diagnostics := [], state := some ⟨"garbage", "tok2", "garbage"⟩ } :=
  ⟨(import_no_format_validation (fun _ => some (GoErr.plain "nf"))
      (fun _ => Except.ok "tok") "garbage" (by decide)).1,
   (import_no_format_validation (fun _ => some (GoErr.plain "nf"))
      (fun _ => Except.ok "tok") "garbage" (by decide)).2.1 _ rfl,
   (import_no_format_validation (fun _ => none)
      (fun _ => Except.ok "tok2") "garbage" (by decide)).2.2 "tok2" rfl rfl⟩

/-- Claim C7: whenever create records state, the record's domain and token
are the plan data, no error diagnostic was added, the cancellation branch
did not run, and the recorded id is the successful URL-decoding of an
identifier returned by a successful Insert call — so a create that
terminates without full success records no verification id. -/
theorem create_no_partial_id (insert : Nat → Except GoErr String) (domain token : String)
    (cfg : Option Nat) (m : DomainResourceModel)
    (h : (create insert domain token cfg).state = some m) :
    m.domain = domain ∧ m.token = token ∧
    (create insert domain token cfg).diagnostics = [] ∧
    (create insert domain token cfg).canceled = false ∧
    ∃ k rawId, insert k = Except.ok rawId ∧ queryUnescape rawId = some m.id :=
  create_state_provenance insert domain token (createTimeout cfg) 0 0 m h

/-- Claim C7, witness: a first-attempt success with an escaped identifier. -/
theorem create_no_partial_id_witness :
    (⟨"example.com", "tok", "x y"⟩ : DomainResourceModel).domain = "example.com" ∧
    (⟨"example.com", "tok", "x y"⟩ : DomainResourceModel).token = "tok" ∧
    (create (fun _ => Except.ok "x%20y") "example.com" "tok" none).diagnostics = [] ∧
    (create (fun _ => Except.ok "x%20y") "example.com" "tok" none).canceled = false ∧
    ∃ k rawId, (fun _ : Nat => (Except.ok "x%20y" : Except GoErr String)) k = Except.ok rawId ∧
      queryUnescape rawId = some (⟨"example.com", "tok", "x y"⟩ : DomainResourceModel).id :=
  create_no_partial_id (fun _ => Except.ok "x%20y") "example.com" "tok" none
    ⟨"example.com", "tok", "x y"⟩
    (by
      have : create (fun _ => Except.ok "x%20y") "example.com" "tok" none =
          { diagnostics := [], state := some ⟨"example.com", "tok", "x y"⟩,
            canceled := false, sleeps := 0 } :=
        createLoop_ok _ "example.com" "tok" 300 0 0 "x%20y" "x y" rfl (by decide)
      rw [this])

/-- Claim C8: importing `dns://example.com` against a client where Get
succeeds and GetToken of "example.com" returns "abc123" yields exactly the
record with id `dns://example.com` (the original identifier), domain
`example.com` (the identifier with the prefix stripped), and token
`abc123` (the fetched value), with no diagnostics. -/
theorem import_round_trip (get : String → Option GoErr) (getToken : String → Except GoErr String)
    (h1 : get "dns://example.com" = none)
    (h2 : getToken "example.com" = Except.ok "abc123") :
    importState get getToken "dns://example.com" =
      { diagnostics := [],
        state := some ⟨"example.com", "abc123", "dns://example.com"⟩ } := by
  unfold importState
  rw [h1]
  simp only []
  rw [show trimPrefix "dns://example.com" "dns://" = "example.com" by decide]
  rw [h2]

/-- Claim C8, witness: the round trip at concrete stubs. -/
theorem import_round_trip_witness :
    importState (fun s => if s = "dns://example.com" then none else some (GoErr.plain "nf"))
      (fun d => if d = "example.com" then Except.ok "abc123" else Except.error (GoErr.plain "nf"))
      "dns://example.com" =
      { diagnostics := [],
        state := some ⟨"example.com", "abc123", "dns://example.com"⟩ } :=
  import_round_trip _ _ (by decide) rfl

/-- Claim C9: an error with no `googleapi.Error` in its chain (context
cancellation, deadline expiry of a network call, any plain wrapped error) is
never classified transient by `checkErr`, whatever its message text — even
when the text equals the transient substring — so create and delete fail
immediately on such an error with zero backoff sleeps. -/
theorem plain_error_permanent (msg sub : String) (insert : Nat → Except GoErr String)
    (del : Nat → Option GoErr) (domain token : String) (deadline : Nat) :
    checkErr (GoErr.plain msg) sub = false
  ∧ (insert 0 = Except.error (GoErr.plain msg) →
      createLoop insert domain token deadline 0 0 =
        { diagnostics := [Diag.createClientError (GoErr.plain msg)], state := none,
          canceled := false, sleeps := 0 })
  ∧ (del 0 = some (GoErr.plain msg) →
      deleteLoop del deadline 0 0 =
        { diagnostics := [Diag.deleteClientError (GoErr.plain msg)],
          canceled := false, sleeps := 0 }) :=
  ⟨rfl,
   fun h => createLoop_permanent insert domain token deadline 0 0 _ h rfl,
   fun h => deleteLoop_permanent del deadline 0 0 _ h rfl⟩

/-- Claim C9, witness: a plain error whose text is exactly the transient
message is still permanent for both loops. -/
theorem plain_error_permanent_witness :
    checkErr (GoErr.plain errTokenNotFound) errTokenNotFound = false
  ∧ createLoop (fun _ => Except.error (GoErr.plain errTokenNotFound)) "example.com" "tok" 300 0 0 =
      { diagnostics := [Diag.createClientError (GoErr.plain errTokenNotFound)], state := none,
        canceled := false, sleeps := 0 }
  ∧ deleteLoop (fun _ => some (GoErr.plain errTokenExists)) 300 0 0 =
      { diagnostics := [Diag.deleteClientError (GoErr.plain errTokenExists)],
        canceled := false, sleeps := 0 } :=
  ⟨(plain_error_permanent errTokenNotFound errTokenNotFound
      (fun _ => Except.error (GoErr.plain errTokenNotFound))
      (fun _ => some (GoErr.plain errTokenExists)) "example.com" "tok" 300).1,
   (plain_error_permanent errTokenNotFound errTokenNotFound
      (fun _ => Except.error (GoErr.plain errTokenNotFound))
      (fun _ => some (GoErr.plain errTokenExists)) "example.com" "tok" 300).2.1 rfl,
   (plain_error_permanent errTokenExists errTokenExists
      (fun _ => Except.error (GoErr.plain errTokenNotFound))
      (fun _ => some (GoErr.plain errTokenExists)) "example.com" "tok" 300).2.2 rfl⟩

/-- Claim C10: the identifier decode step is query-string unescaping —
decoding is exactly pure percent-decoding composed with replacing each `+`
by a space, so an identifier containing `+` and only valid escapes is stored
with each `+` replaced by a space; an identifier with a malformed percent
escape aborts the create with a decode-error diagnostic. -/
theorem queryUnescape_plus_space (insert : Nat → Except GoErr String)
    (domain token : String) (deadline : Nat) (rawId id : String) :
    (∀ l : List Char, unescapeList l = specPercentDecode (l.map plusToSpace))
  ∧ (insert 0 = Except.ok rawId → queryUnescape rawId = some id →
      (createLoop insert domain token deadline 0 0).state =
        some { domain := domain, token := token, id := id })
  ∧ (insert 0 = Except.ok rawId → queryUnescape rawId = none →
      createLoop insert domain token deadline 0 0 =
        { diagnostics := [Diag.decodeError rawId], state := none,
          canceled := false, sleeps := 0 }) :=
  ⟨unescape_eq_spec,
   fun hok hdec => by
     rw [createLoop_ok insert domain token deadline 0 0 rawId id hok hdec],
   fun hok hdec => createLoop_decodeFail insert domain token deadline 0 0 rawId hok hdec⟩

/-- Claim C10, witness: `a+b%3Dc` is stored as `a b=c`; the malformed escape
`a%zz` aborts the create. -/
theorem queryUnescape_plus_space_witness :
    (createLoop (fun _ => Except.ok "a+b%3Dc") "example.com" "tok" 300 0 0).state =
      some { domain := "example.com", token := "tok", id := "a b=c" }
  ∧ createLoop (fun _ => Except.ok "a%zz") "example.com" "tok" 300 0 0 =
      { diagnostics := [Diag.decodeError "a%zz"], state := none,
        canceled := false, sleeps := 0 } :=
  ⟨(queryUnescape_plus_space (fun _ => Except.ok "a+b%3Dc") "example.com" "tok" 300
      "a+b%3Dc" "a b=c").2.1 rfl (by decide),
   (queryUnescape_plus_space (fun _ => Except.ok "a%zz") "example.com" "tok" 300
      "a%zz" "unused").2.2 rfl (by decide)⟩
